import Mathlib

/-!
Shallow embedding of the typed RPC framework of `include/RPC.hpp` and of the
Memory module (`src/memory.cpp`, `include/memory.h`).

The backing frame type `wisc::RPCMsg` is an external library; it is modelled
from the wire-envelope contract of the specification (named keys holding one
of the four wire value types, typed getters signalling bad-key and type
errors, an existence probe).  Everything layered on top of the frame —
`RPC::Message`, the `Serializer` specializations, `RPC::invoke`,
`helpers::handle_exception`, `RPC::RemoteException`, `Connection::call` and
`Memory::Read` — is translated directly from the repository sources.
-/

/-- Decimal digit list of a natural number, most significant digit first,
with an explicit fuel argument so the definition is structural.  Models the
digit production of `std::to_string` on a nonnegative value. -/
def decDigitsCore : Nat → Nat → List Char → List Char
  | 0, _, acc => acc
  | fuel + 1, n, acc =>
    if n < 10 then Nat.digitChar n :: acc
    else decDigitsCore fuel (n / 10) (Nat.digitChar (n % 10) :: acc)

/-- The decimal string of a natural number; models `std::to_string(index)`
for the nonnegative key indices used by `RPC::Message`. -/
def decStr (n : Nat) : String := String.mk (decDigitsCore (n + 1) n [])

/-- Any sufficient fuel computes the same digits, and the accumulator is a
suffix. -/
theorem decDigitsCore_eq (n : Nat) : ∀ fuel acc, n < fuel →
    decDigitsCore fuel n acc = decDigitsCore (n + 1) n [] ++ acc := by
  induction n using Nat.strong_induction_on with
  | _ n ih =>
    intro fuel acc hf
    match fuel, hf with
    | f + 1, hf =>
      by_cases h10 : n < 10
      · simp [decDigitsCore, h10]
      · have hdiv : n / 10 < n := Nat.div_lt_self (by omega) (by omega)
        have h1 : decDigitsCore f (n / 10) (Nat.digitChar (n % 10) :: acc)
            = decDigitsCore (n / 10 + 1) (n / 10) [] ++ (Nat.digitChar (n % 10) :: acc) :=
          ih (n / 10) hdiv f _ (by omega)
        have h2 : decDigitsCore n (n / 10) [Nat.digitChar (n % 10)]
            = decDigitsCore (n / 10 + 1) (n / 10) [] ++ [Nat.digitChar (n % 10)] :=
          ih (n / 10) hdiv n _ (by omega)
        simp [decDigitsCore, h10, h1, h2]

/-- Base-ten value of a digit list, most significant first. -/
def digitsVal (ds : List Char) : Nat :=
  ds.foldl (fun a c => 10 * a + (c.toNat - 48)) 0

theorem digitChar_val (d : Nat) (h : d < 10) : (Nat.digitChar d).toNat - 48 = d := by
  interval_cases d <;> decide

theorem digitsVal_decDigits (n : Nat) : digitsVal (decDigitsCore (n + 1) n []) = n := by
  induction n using Nat.strong_induction_on with
  | _ n ih =>
    by_cases h10 : n < 10
    · simp [decDigitsCore, h10, digitsVal, List.foldl, digitChar_val n h10]
    · have hdiv : n / 10 < n := Nat.div_lt_self (by omega) (by omega)
      have hsplit : decDigitsCore (n + 1) n []
          = decDigitsCore (n / 10 + 1) (n / 10) [] ++ [Nat.digitChar (n % 10)] := by
        have hstep : decDigitsCore (n + 1) n []
            = decDigitsCore n (n / 10) [Nat.digitChar (n % 10)] := by
          simp [decDigitsCore, h10]
        rw [hstep]
        exact decDigitsCore_eq (n / 10) n [Nat.digitChar (n % 10)] (by omega)
      rw [hsplit]
      unfold digitsVal
      rw [List.foldl_append]
      have hih := ih (n / 10) hdiv
      unfold digitsVal at hih
      rw [hih]
      have hd := digitChar_val (n % 10) (Nat.mod_lt n (by omega))
      simp only [List.foldl]
      omega

theorem decStr_injective : Function.Injective decStr := by
  intro a b h
  have hdata : decDigitsCore (a + 1) a [] = decDigitsCore (b + 1) b [] := by
    have := congrArg String.data h
    simpa [decStr] using this
  have ha := digitsVal_decDigits a
  have hb := digitsVal_decDigits b
  rw [hdata] at ha
  exact ha.symm.trans hb

theorem decStr_ne {i j : Nat} (h : i ≠ j) : decStr i ≠ decStr j :=
  fun he => h (decStr_injective he)

/-- The four transmissible wire value types of the framework (`U32`, `STR`,
`VEC_U32`, `VEC_STR`), i.e. the types for which `RPC::Serializer` is
specialized. -/
inductive RPCType
  | u32
  | str
  | vecU32
  | vecStr
deriving DecidableEq, Repr

/-- A wire value: the payload of one frame key.  `word` carries a `uint32_t`,
`str` a `std::string`, `wordArray` a `std::vector<uint32_t>` and `strArray` a
`std::vector<std::string>`. -/
inductive RPCValue
  | word (w : Nat)
  | str (s : String)
  | wordArray (ws : List Nat)
  | strArray (ss : List String)
deriving DecidableEq, Repr

/-- The wire type tag of a value. -/
def RPCValue.typeOf : RPCValue → RPCType
  | .word _ => .u32
  | .str _ => .str
  | .wordArray _ => .vecU32
  | .strArray _ => .vecStr

/-- Errors signalled by the frame library's typed getters and setters,
modelled from the spec's wire-envelope contract: `BadKey`, `Type`,
`BufferTooSmall`, `CorruptMessage`. -/
inductive RPCError
  | badKey (key : String)
  | typeError
  | bufferTooSmall
  | corrupt (reason : String)
deriving DecidableEq, Repr

/-- First value stored under a key in an association list. -/
def storeGet : List (String × RPCValue) → String → Option RPCValue
  | [], _ => none
  | (k', v) :: rest, k => if k' = k then some v else storeGet rest k

/-- Store a value under a key: replace the first binding of that key if one
exists, otherwise append a new binding at the end. -/
def storeSet : List (String × RPCValue) → String → RPCValue → List (String × RPCValue)
  | [], k, v => [(k, v)]
  | (k', v') :: rest, k, v =>
    if k' = k then (k, v) :: rest else (k', v') :: storeSet rest k v

theorem storeGet_storeSet_self (s : List (String × RPCValue)) (k : String) (v : RPCValue) :
    storeGet (storeSet s k v) k = some v := by
  induction s with
  | nil => simp [storeSet, storeGet]
  | cons hd tl ih =>
    by_cases h : hd.1 = k
    · simp [storeSet, storeGet, h]
    · simp [storeSet, storeGet, h, ih]

theorem storeGet_storeSet_ne (s : List (String × RPCValue)) (k k' : String) (v : RPCValue)
    (h : k' ≠ k) : storeGet (storeSet s k v) k' = storeGet s k' := by
  induction s with
  | nil => simp [storeSet, storeGet, h, Ne.symm h]
  | cons hd tl ih =>
    by_cases hh : hd.1 = k
    · simp [storeSet, storeGet, hh, h, Ne.symm h]
    · by_cases hk' : hd.1 = k'
      · simp [storeSet, storeGet, hh, hk', h, Ne.symm h]
      · simp [storeSet, storeGet, hh, hk', ih, h, Ne.symm h]

theorem storeSet_of_absent (s : List (String × RPCValue)) (k : String) (v : RPCValue)
    (h : storeGet s k = none) : storeSet s k v = s ++ [(k, v)] := by
  induction s with
  | nil => simp [storeSet]
  | cons hd tl ih =>
    by_cases hh : hd.1 = k
    · simp [storeGet, hh] at h
    · simp [storeGet, hh] at h
      simp [storeSet, hh, ih h]

/-- Modelled from the spec: the `wisc::RPCMsg` frame, an opaque key/value
envelope with a frame-level routing key and named keys holding wire values.
`route` models the string passed to the `wisc::RPCMsg` constructor. -/
structure RPCMsg where
  route : String
  store : List (String × RPCValue)
deriving DecidableEq, Repr

/-- A frame as freshly constructed: routing key set, no keys. -/
def RPCMsg.fresh (route : String) : RPCMsg := ⟨route, []⟩

/-- Store a value under a named key (`set_word` / `set_string` /
`set_word_array` / `set_string_array`, the tag of the value selecting the
setter). -/
def RPCMsg.set (m : RPCMsg) (k : String) (v : RPCValue) : RPCMsg :=
  { m with store := storeSet m.store k v }

/-- Raw lookup of a named key. -/
def RPCMsg.get (m : RPCMsg) (k : String) : Option RPCValue :=
  storeGet m.store k

/-- Modelled from the spec: the frame's existence probe `get_key_exists`. -/
def RPCMsg.keyExists (m : RPCMsg) (k : String) : Bool :=
  (m.get k).isSome

/-- The key names of the frame, in insertion order. -/
def RPCMsg.keys (m : RPCMsg) : List String := m.store.map Prod.fst

/-- Modelled from the spec: typed getter `get_word`; signals `BadKey` on an
absent key and `Type` on a tag mismatch. -/
def RPCMsg.getWord (m : RPCMsg) (k : String) : Except RPCError Nat :=
  match m.get k with
  | none => .error (.badKey k)
  | some (.word w) => .ok w
  | some _ => .error .typeError

/-- Modelled from the spec: typed getter `get_string`. -/
def RPCMsg.getString (m : RPCMsg) (k : String) : Except RPCError String :=
  match m.get k with
  | none => .error (.badKey k)
  | some (.str s) => .ok s
  | some _ => .error .typeError

/-- Modelled from the spec: typed getter `get_word_array`. -/
def RPCMsg.getWordArray (m : RPCMsg) (k : String) : Except RPCError (List Nat) :=
  match m.get k with
  | none => .error (.badKey k)
  | some (.wordArray ws) => .ok ws
  | some _ => .error .typeError

/-- Modelled from the spec: typed getter `get_string_array`. -/
def RPCMsg.getStringArray (m : RPCMsg) (k : String) : Except RPCError (List String) :=
  match m.get k with
  | none => .error (.badKey k)
  | some (.strArray ss) => .ok ss
  | some _ => .error .typeError

theorem RPCMsg.get_set_self (m : RPCMsg) (k : String) (v : RPCValue) :
    (m.set k v).get k = some v := storeGet_storeSet_self m.store k v

theorem RPCMsg.get_set_ne (m : RPCMsg) (k k' : String) (v : RPCValue) (h : k' ≠ k) :
    (m.set k v).get k' = m.get k' := storeGet_storeSet_ne m.store k k' v h

/-- `RPC::Message` over a write-mode frame: the backing frame plus the index
`_key_idx` of the next free key (starts at 0). -/
structure WMessage where
  msg : RPCMsg
  keyIdx : Nat
deriving DecidableEq, Repr

/-- `RPC::Message` over a read-mode frame: the backing frame plus the index
`_key_idx` of the next unread key (starts at 0). -/
structure RMessage where
  msg : RPCMsg
  keyIdx : Nat
deriving DecidableEq, Repr

/-- One `Serializer<T>::from` call: `msg.set_key(msg._key_idx++, value)`.
The key written is the decimal string of the cursor, and the cursor advances
by exactly one whatever the value's type. -/
def WMessage.push (m : WMessage) (v : RPCValue) : WMessage :=
  ⟨m.msg.set (decStr m.keyIdx) v, m.keyIdx + 1⟩

/-- `Message::set` on a tuple: serialize the elements from left to right. -/
def WMessage.setTuple : WMessage → List RPCValue → WMessage
  | m, [] => m
  | m, v :: vs => WMessage.setTuple (m.push v) vs

/-- One `Serializer<T>::to` call: `msg.get_key<T>(msg._key_idx++)`, the
requested type selecting the frame getter. -/
def RMessage.pop (m : RMessage) (t : RPCType) : Except RPCError (RPCValue × RMessage) :=
  match t with
  | .u32 =>
    match m.msg.getWord (decStr m.keyIdx) with
    | .error e => .error e
    | .ok w => .ok (.word w, ⟨m.msg, m.keyIdx + 1⟩)
  | .str =>
    match m.msg.getString (decStr m.keyIdx) with
    | .error e => .error e
    | .ok s => .ok (.str s, ⟨m.msg, m.keyIdx + 1⟩)
  | .vecU32 =>
    match m.msg.getWordArray (decStr m.keyIdx) with
    | .error e => .error e
    | .ok ws => .ok (.wordArray ws, ⟨m.msg, m.keyIdx + 1⟩)
  | .vecStr =>
    match m.msg.getStringArray (decStr m.keyIdx) with
    | .error e => .error e
    | .ok ss => .ok (.strArray ss, ⟨m.msg, m.keyIdx + 1⟩)

/-- `Message::get` on a tuple type: deserialize the elements from left to
right (the C++ source relies on initializer lists evaluating left to
right). -/
def RMessage.getTuple : RMessage → List RPCType → Except RPCError (List RPCValue × RMessage)
  | m, [] => .ok ([], m)
  | m, t :: ts =>
    match m.pop t with
    | .error e => .error e
    | .ok (v, m') =>
      match m'.getTuple ts with
      | .error e => .error e
      | .ok (vs, m'') => .ok (v :: vs, m'')

/-- The client encoder of `Connection::call`: a fresh write-mode Message over
a fresh request frame, the arguments serialized left to right. -/
def encodeRequest (route : String) (args : List RPCValue) : RPCMsg :=
  (WMessage.setTuple ⟨RPCMsg.fresh route, 0⟩ args).msg

theorem WMessage.setTuple_keyIdx (vs : List RPCValue) (m : WMessage) :
    (WMessage.setTuple m vs).keyIdx = m.keyIdx + vs.length := by
  induction vs generalizing m with
  | nil => simp [WMessage.setTuple]
  | cons v rest ih =>
    simp [WMessage.setTuple, ih, WMessage.push]
    omega

/-- Keys strictly below the write cursor are untouched by further writes. -/
theorem WMessage.setTuple_get_low (vs : List RPCValue) (m : WMessage) (k : Nat)
    (hk : k < m.keyIdx) :
    (WMessage.setTuple m vs).msg.get (decStr k) = m.msg.get (decStr k) := by
  induction vs generalizing m with
  | nil => simp [WMessage.setTuple]
  | cons v rest ih =>
    have hne : decStr k ≠ decStr m.keyIdx := decStr_ne (by omega)
    have hlow : k < (m.push v).keyIdx := by simp [WMessage.push]; omega
    rw [WMessage.setTuple, ih (m.push v) hlow]
    simp [WMessage.push, RPCMsg.get_set_ne _ _ _ _ hne]

/-- After a run of writes, the key at offset `j` from the starting cursor
holds the `j`-th value written. -/
theorem WMessage.setTuple_get_elem (vs : List RPCValue) (m : WMessage) (j : Nat)
    (hj : j < vs.length) :
    (WMessage.setTuple m vs).msg.get (decStr (m.keyIdx + j)) = some (vs.get ⟨j, hj⟩) := by
  induction vs generalizing m j with
  | nil => simp at hj
  | cons v rest ih =>
    match j with
    | 0 =>
      have hlow : m.keyIdx < (m.push v).keyIdx := by simp [WMessage.push]
      rw [WMessage.setTuple]
      have := WMessage.setTuple_get_low rest (m.push v) m.keyIdx hlow
      simp only [Nat.add_zero, this]
      simp [WMessage.push, RPCMsg.get_set_self]
    | j + 1 =>
      rw [WMessage.setTuple]
      have hj' : j < rest.length := by simpa using hj
      have := ih (m.push v) j hj'
      simp only [WMessage.push] at this ⊢
      have harith : m.keyIdx + (j + 1) = m.keyIdx + 1 + j := by omega
      rw [harith]
      simpa using this

/-- A run of writes starting at a cursor above every existing key appends
exactly the decimal keys `cursor`, `cursor+1`, … in order. -/
theorem WMessage.setTuple_keys (vs : List RPCValue) (m : WMessage)
    (h : ∀ j, m.keyIdx ≤ j → m.msg.get (decStr j) = none) :
    (WMessage.setTuple m vs).msg.keys
      = m.msg.keys ++ (List.range vs.length).map (fun j => decStr (m.keyIdx + j)) := by
  induction vs generalizing m with
  | nil => simp [WMessage.setTuple]
  | cons v rest ih =>
    have habs : m.msg.get (decStr m.keyIdx) = none := h m.keyIdx (Nat.le_refl _)
    have hkeys : (m.push v).msg.keys = m.msg.keys ++ [decStr m.keyIdx] := by
      simp [WMessage.push, RPCMsg.set, RPCMsg.keys,
        storeSet_of_absent m.msg.store (decStr m.keyIdx) v habs]
    have hnone : ∀ j, (m.push v).keyIdx ≤ j → (m.push v).msg.get (decStr j) = none := by
      intro j hj
      simp only [WMessage.push] at hj ⊢
      have hne : decStr j ≠ decStr m.keyIdx := decStr_ne (by omega)
      rw [RPCMsg.get_set_ne _ _ _ _ hne]
      exact h j (by omega)
    rw [WMessage.setTuple, ih (m.push v) hnone, hkeys]
    simp only [WMessage.push, List.length_cons, List.append_assoc, List.singleton_append]
    congr 1
    rw [List.range_succ_eq_map]
    simp only [List.map_cons, List.map_map, Nat.add_zero]
    congr 1
    apply List.map_congr_left
    intro j _
    simp only [Function.comp_apply]
    congr 1
    omega

/-- The exceptions that can reach the catch arms of `RPC::invoke`:
`std::exception` (carrying its `what()` text), the four frame exceptions of
the wisc library, and anything else (`catch (...)`). -/
inductive ServerException
  | stdExc (what : String)
  | badKey (key : String)
  | typeExc
  | bufferTooSmall
  | corruptMessage (reason : String)
  | unknown
deriving DecidableEq, Repr

/-- `helpers::get_exception_message`, one specialization per exception type;
the `unknown` case is the text used by the `handle_exception(response)`
overload reached from `catch (...)`. -/
def get_exception_message : ServerException → String
  | .stdExc w => w
  | .badKey k => "bad RPC key " ++ k
  | .typeExc => "RPC type error"
  | .bufferTooSmall => "RPC buffer too small"
  | .corruptMessage why => "corrupt RPC message: " ++ why
  | .unknown => "caught unknown exception"

/-- `helpers::set_backtrace`: best effort.  `bt` is the outcome of the
`backtrace`/`backtrace_symbols` capture: `some syms` when symbol data was
obtained (at most 30 frames), `none` when `backtrace_symbols` returned null
or an exception was swallowed by the internal catch-all.  On success the
symbol list is stored under the `"backtrace"` key; on failure the response
is left untouched. -/
def set_backtrace (response : RPCMsg) (bt : Option (List String)) : RPCMsg :=
  match bt with
  | none => response
  | some syms => response.set "backtrace" (.strArray syms)

/-- `helpers::handle_exception`: store the exception's message under the
`"error"` key, then attempt the backtrace. -/
def handle_exception (e : ServerException) (response : RPCMsg)
    (bt : Option (List String)) : RPCMsg :=
  set_backtrace (response.set "error" (.str (get_exception_message e))) bt

/-- The wisc frame exceptions thrown by the typed getters, as they are
caught by the dedicated catch arms of `RPC::invoke`. -/
def ofRPCError : RPCError → ServerException
  | .badKey k => .badKey k
  | .typeError => .typeExc
  | .bufferTooSmall => .bufferTooSmall
  | .corrupt why => .corruptMessage why

/-- A registered typed method: its declared argument types
(`functor_decay_args_t`) and its body.  `run` returning `Except.error`
models the body throwing; `Except.ok none` models a `void` return and
`Except.ok (some r)` a value return. -/
structure MethodImpl where
  argTypes : List RPCType
  run : List RPCValue → Except ServerException (Option RPCValue)

/-- `RPC::invoke<Method>`: decode the arguments from the request in
declaration order, run the method, serialize the result into the response
(nothing for `void`); any exception is trapped by `handle_exception`. -/
def invoke (M : MethodImpl) (request response : RPCMsg)
    (bt : Option (List String)) : RPCMsg :=
  match RMessage.getTuple ⟨request, 0⟩ M.argTypes with
  | .error e => handle_exception (ofRPCError e) response bt
  | .ok (args, _) =>
    match M.run args with
    | .error e => handle_exception e response bt
    | .ok none => response
    | .ok (some r) => (WMessage.push ⟨response, 0⟩ r).msg

/-- `RPC::RemoteException` as observed by the caller: `message` is the
`std::runtime_error` text built by the constructor, `has_backtrace` and
`backtrace` its two accessors. -/
structure RemoteException where
  message : String
  has_backtrace : Bool
  backtrace : List String
deriving DecidableEq, Repr

/-- The `RemoteException` constructor: build the what-text from the
response's `"error"` key, probe for `"backtrace"` and copy it when present
(`_backtrace` stays default-empty otherwise).  Getter failures propagate as
client-side frame errors. -/
def RemoteException.ofResponse (response : RPCMsg) : Except RPCError RemoteException :=
  match response.getString "error" with
  | .error e => .error e
  | .ok errText =>
    if response.keyExists "backtrace" then
      match response.getStringArray "backtrace" with
      | .error e => .error e
      | .ok bts => .ok ⟨"remote error: " ++ errText, true, bts⟩
    else
      .ok ⟨"remote error: " ++ errText, false, []⟩

/-- Outcome of `Connection::call` after the transport returned a response. -/
inductive CallResult
  | ok (ret : Option RPCValue)
  | remote (e : RemoteException)
  | clientError (e : RPCError)
deriving DecidableEq, Repr

/-- The client decoder of `Connection::call` applied to the response frame:
raise a `RemoteException` when the reserved `"error"` key exists, otherwise
read the declared return (nothing for a `void` method). -/
def clientReceive (retType : Option RPCType) (response : RPCMsg) : CallResult :=
  if response.keyExists "error" then
    match RemoteException.ofResponse response with
    | .ok e => .remote e
    | .error ce => .clientError ce
  else
    match retType with
    | none => .ok none
    | some t =>
      match RMessage.pop ⟨response, 0⟩ t with
      | .ok (v, _) => .ok (some v)
      | .error ce => .clientError ce

/-- `typeid(T).name()` of a class type under the project's GCC toolchain,
which follows the Itanium C++ ABI: a nested name is `N<parts>E` and every
component is its byte length in decimal followed by the component, so
`typeid(Memory::Read).name()` is `"N6Memory4ReadE"`. -/
def itaniumTypeName (components : List String) : String :=
  match components with
  | [c] => decStr c.length ++ c
  | cs => "N" ++ String.join (cs.map (fun c => decStr c.length ++ c)) ++ "E"

/-- The routing key stamped on the request frame by `Connection::call`:
`std::string(Method::module) + "." + typeid(Method).name()`. -/
def clientRoutingKey (module : String) (components : List String) : String :=
  module ++ "." ++ itaniumTypeName components

/-- The method identifier under which `module_init` of `src/memory.cpp`
registers the typed Read stub: `typeid(Memory::Read).name()`. -/
def memoryReadRegisteredName : String := itaniumTypeName ["Memory", "Read"]

/-- The routing key stamped on a request for `Memory::Read`
(`Memory::module` is `"memory"`). -/
def memoryReadRoutingKey : String := clientRoutingKey "memory" ["Memory", "Read"]

/-- The memory service behind `memhub_read`/`memsvc_get_last_error`, an
external collaborator: whether a read succeeds, the words it stores into the
caller's buffer, and the last-error text. -/
structure MemSvc where
  readOk : Nat → Nat → Bool
  readData : Nat → Nat → List Nat
  lastError : String

/-- Overwrite the front of a fixed-size buffer with the service's data, the
buffer keeping its size (a `std::vector` filled through a raw pointer). -/
def fillBuffer (buf data : List Nat) : List Nat :=
  data.take buf.length ++ buf.drop data.length

/-- `Memory::Read::operator()`: allocate a vector of `count` zeros, let the
service fill it; on success return the vector, on failure throw
`"read memsvc error: " + memsvc_get_last_error(memsvc)`. -/
def MemoryRead (svc : MemSvc) (address count : Nat) : Except String (List Nat) :=
  if svc.readOk address count then
    .ok (fillBuffer (List.replicate count 0) (svc.readData address count))
  else
    .error ("read memsvc error: " ++ svc.lastError)

/-- Reading one key holding a value of the requested type succeeds and
advances the cursor by one. -/
theorem RMessage.pop_of_get (M : RPCMsg) (i : Nat) (v : RPCValue)
    (h : M.get (decStr i) = some v) :
    RMessage.pop ⟨M, i⟩ v.typeOf = .ok (v, ⟨M, i + 1⟩) := by
  cases v <;>
    simp [RMessage.pop, RPCValue.typeOf, RPCMsg.getWord, RPCMsg.getString,
      RPCMsg.getWordArray, RPCMsg.getStringArray, h]

/-- If, starting at cursor `i`, the frame holds the values `vs` under the
consecutive decimal keys, then decoding their type list yields exactly `vs`
and leaves the cursor past them. -/
theorem RMessage.getTuple_pointwise (vs : List RPCValue) (M : RPCMsg) (i : Nat)
    (h : ∀ j, (hj : j < vs.length) → M.get (decStr (i + j)) = some (vs.get ⟨j, hj⟩)) :
    RMessage.getTuple ⟨M, i⟩ (vs.map RPCValue.typeOf) = .ok (vs, ⟨M, i + vs.length⟩) := by
  induction vs generalizing i with
  | nil => simp [RMessage.getTuple]
  | cons v rest ih =>
    have h0 : M.get (decStr i) = some v := by
      have := h 0 (by simp)
      simpa using this
    have hpop := RMessage.pop_of_get M i v h0
    have hrest : ∀ j, (hj : j < rest.length) →
        M.get (decStr (i + 1 + j)) = some (rest.get ⟨j, hj⟩) := by
      intro j hj
      have := h (j + 1) (by simpa using Nat.succ_lt_succ hj)
      have harith : i + (j + 1) = i + 1 + j := by omega
      rw [harith] at this
      simpa using this
    have htail := ih (i + 1) hrest
    rw [List.map_cons, RMessage.getTuple, hpop]
    simp only [htail]
    have harith2 : i + 1 + rest.length = i + (rest.length + 1) := by omega
    simp [harith2]

/-- C1: for every method signature over the wire type set and every argument
tuple of those types, the server stub's decode (`Message::get` on a
read-mode Message over the request) applied to the frame produced by the
client encoder (`Message::set` on a write-mode Message) yields exactly the
argument tuple, element for element in declaration order. -/
theorem C1_encode_decode_roundtrip (route : String) (args : List RPCValue) :
    RMessage.getTuple ⟨encodeRequest route args, 0⟩ (args.map RPCValue.typeOf)
      = .ok (args, ⟨encodeRequest route args, args.length⟩) := by
  have h : ∀ j, (hj : j < args.length) →
      (encodeRequest route args).get (decStr (0 + j)) = some (args.get ⟨j, hj⟩) := by
    intro j hj
    have := WMessage.setTuple_get_elem args ⟨RPCMsg.fresh route, 0⟩ j hj
    simpa [encodeRequest] using this
  have := RMessage.getTuple_pointwise args (encodeRequest route args) 0 h
  simpa using this

/-- C2: a run of writes into a fresh write-mode Message produces exactly the
contiguous decimal keys `"0"`, `"1"`, …, `"n-1"` where `n` is the number of
top-level elements written; the cursor starts at 0, ends at `n`, and every
single write — scalar, string or vector alike — advances it by exactly
one. -/
theorem C2_key_names_contiguous (route : String) (args : List RPCValue) :
    (WMessage.setTuple ⟨RPCMsg.fresh route, 0⟩ args).msg.keys
        = (List.range args.length).map decStr
    ∧ (WMessage.setTuple ⟨RPCMsg.fresh route, 0⟩ args).keyIdx = args.length
    ∧ ∀ (m : WMessage) (v : RPCValue), (WMessage.push m v).keyIdx = m.keyIdx + 1 := by
  refine ⟨?_, ?_, ?_⟩
  · have h : ∀ j, (⟨RPCMsg.fresh route, 0⟩ : WMessage).keyIdx ≤ j →
        (⟨RPCMsg.fresh route, 0⟩ : WMessage).msg.get (decStr j) = none := by
      intro j _
      rfl
    have := WMessage.setTuple_keys args ⟨RPCMsg.fresh route, 0⟩ h
    simpa [RPCMsg.fresh, RPCMsg.keys] using this
  · simpa using WMessage.setTuple_keyIdx args ⟨RPCMsg.fresh route, 0⟩
  · intro m v
    rfl

/-- Helper: the server-side decode of a client-encoded frame succeeds with
the original arguments (shared by the invoke lemmas below). -/
theorem decode_of_encode (route : String) (args : List RPCValue) :
    RMessage.getTuple ⟨encodeRequest route args, 0⟩ (args.map RPCValue.typeOf)
      = .ok (args, ⟨encodeRequest route args, args.length⟩) := by
  have h : ∀ j, (hj : j < args.length) →
      (encodeRequest route args).get (decStr (0 + j)) = some (args.get ⟨j, hj⟩) := by
    intro j hj
    have := WMessage.setTuple_get_elem args ⟨RPCMsg.fresh route, 0⟩ j hj
    simpa [encodeRequest] using this
  have := RMessage.getTuple_pointwise args (encodeRequest route args) 0 h
  simpa using this

/-- Helper: when the method body throws, `invoke` hands the response to
`handle_exception`. -/
theorem invoke_run_error (M : MethodImpl) (args : List RPCValue) (route : String)
    (response : RPCMsg) (bt : Option (List String)) (e : ServerException)
    (hargs : M.argTypes = args.map RPCValue.typeOf)
    (hrun : M.run args = .error e) :
    invoke M (encodeRequest route args) response bt = handle_exception e response bt := by
  unfold invoke
  rw [hargs, decode_of_encode]
  simp [hrun]

/-- Helper: when the method body returns `void`, `invoke` leaves the
response frame untouched. -/
theorem invoke_run_unit (M : MethodImpl) (args : List RPCValue) (route : String)
    (response : RPCMsg) (bt : Option (List String))
    (hargs : M.argTypes = args.map RPCValue.typeOf)
    (hrun : M.run args = .ok none) :
    invoke M (encodeRequest route args) response bt = response := by
  unfold invoke
  rw [hargs, decode_of_encode]
  simp [hrun]

/-- Helper: whatever the backtrace capture does, `handle_exception` leaves
the exception's message under the `"error"` key. -/
theorem handle_exception_getString_error (e : ServerException) (response : RPCMsg)
    (bt : Option (List String)) :
    (handle_exception e response bt).getString "error" = .ok (get_exception_message e) := by
  cases bt with
  | none =>
    simp [handle_exception, set_backtrace, RPCMsg.getString, RPCMsg.get_set_self]
  | some syms =>
    have hne : ("error" : String) ≠ "backtrace" := by decide
    simp [handle_exception, set_backtrace, RPCMsg.getString,
      RPCMsg.get_set_ne _ _ _ _ hne, RPCMsg.get_set_self]

/-- Helper: the `"error"` key exists after `handle_exception`. -/
theorem handle_exception_keyExists_error (e : ServerException) (response : RPCMsg)
    (bt : Option (List String)) :
    (handle_exception e response bt).keyExists "error" = true := by
  cases bt with
  | none =>
    simp [handle_exception, set_backtrace, RPCMsg.keyExists, RPCMsg.get_set_self]
  | some syms =>
    have hne : ("error" : String) ≠ "backtrace" := by decide
    simp [handle_exception, set_backtrace, RPCMsg.keyExists,
      RPCMsg.get_set_ne _ _ _ _ hne, RPCMsg.get_set_self]

/-- Helper: `handle_exception` touches no key other than `"error"` and
`"backtrace"`. -/
theorem handle_exception_get_other (e : ServerException) (response : RPCMsg)
    (bt : Option (List String)) (k : String)
    (hke : k ≠ "error") (hkb : k ≠ "backtrace") :
    (handle_exception e response bt).get k = response.get k := by
  cases bt with
  | none =>
    simp [handle_exception, set_backtrace, RPCMsg.get_set_ne _ _ _ _ hke]
  | some syms =>
    simp [handle_exception, set_backtrace, RPCMsg.get_set_ne _ _ _ _ hkb,
      RPCMsg.get_set_ne _ _ _ _ hke]

/-- A handler used in the concrete counterexamples: one `U32` argument,
always throws a `std::exception` whose `what()` is `"boom"`. -/
def c3method : MethodImpl := ⟨[.u32], fun _ => .error (.stdExc "boom")⟩

/-- The response produced when that handler is invoked on a well-formed
request and backtrace capture fails. -/
def c3response : RPCMsg :=
  invoke c3method (encodeRequest "memory.X" [.word 7]) (RPCMsg.fresh "") none

/-- C3 counterexample: the server handler raised an error with text
`"boom"`, yet the text carried by the `RemoteException` the caller sees is
`"remote error: boom"`, not `"boom"` — the constructor prefixes the wire
text, so the message does not equal the handler's text. -/
theorem C3_counterexample :
    clientReceive (some .vecU32) c3response
      = .remote ⟨"remote error: boom", false, []⟩
    ∧ ("remote error: boom" : String) ≠ "boom" :=
  ⟨rfl, by decide⟩

/-- C3 (amended): if the server handler raises an error with text `T`, the
client observes a remote error whose message is `"remote error: " ++ T`:
the handler text survives verbatim on the wire but the client-side
`RemoteException` constructor prepends the fixed prefix. -/
theorem C3_amended_remote_message (M : MethodImpl) (args : List RPCValue)
    (route rroute : String) (bt : Option (List String)) (T : String) (rt : Option RPCType)
    (hargs : M.argTypes = args.map RPCValue.typeOf)
    (hrun : M.run args = .error (.stdExc T)) :
    ∃ ex : RemoteException,
      clientReceive rt (invoke M (encodeRequest route args) (RPCMsg.fresh rroute) bt)
        = .remote ex
      ∧ ex.message = "remote error: " ++ T := by
  rw [invoke_run_error M args route _ bt _ hargs hrun]
  have hex := handle_exception_keyExists_error (.stdExc T) (RPCMsg.fresh rroute) bt
  have herr := handle_exception_getString_error (.stdExc T) (RPCMsg.fresh rroute) bt
  cases bt with
  | none =>
    refine ⟨⟨"remote error: " ++ T, false, []⟩, ?_, rfl⟩
    have hnb : (handle_exception (.stdExc T) (RPCMsg.fresh rroute) none).keyExists "backtrace"
        = false := by
      have hne : ("backtrace" : String) ≠ "error" := by decide
      simp [handle_exception, set_backtrace, RPCMsg.keyExists,
        RPCMsg.get_set_ne _ _ _ _ hne, RPCMsg.fresh, RPCMsg.get, storeGet]
    simp [clientReceive, hex, RemoteException.ofResponse, herr, hnb, get_exception_message]
  | some syms =>
    refine ⟨⟨"remote error: " ++ T, true, syms⟩, ?_, rfl⟩
    have hget : (handle_exception (.stdExc T) (RPCMsg.fresh rroute) (some syms)).get "backtrace"
        = some (.strArray syms) := by
      simp [handle_exception, set_backtrace, RPCMsg.get_set_self]
    have hnb : (handle_exception (.stdExc T) (RPCMsg.fresh rroute) (some syms)).keyExists
        "backtrace" = true := by
      simp [RPCMsg.keyExists, hget]
    simp [clientReceive, hex, RemoteException.ofResponse, herr, hnb,
      RPCMsg.getStringArray, hget, get_exception_message]

/-- C3 amended, witnessed at a concrete handler, arguments and backtrace
outcome. -/
theorem C3_amended_witness :
    ∃ ex : RemoteException,
      clientReceive (some .vecU32)
        (invoke c3method (encodeRequest "memory.X" [.word 7]) (RPCMsg.fresh "") none)
        = .remote ex
      ∧ ex.message = "remote error: " ++ "boom" :=
  C3_amended_remote_message c3method [.word 7] "memory.X" "" none "boom" (some .vecU32) rfl rfl

/-- C4 counterexample: the routing key stamped for `Memory::Read` is built
from `typeid(Memory::Read).name()` — under the project's GCC toolchain the
Itanium-mangled `"N6Memory4ReadE"` — so it is `"memory.N6Memory4ReadE"`,
not `"memory.Read"`; the declared name is not used. -/
theorem C4_counterexample :
    memoryReadRoutingKey = "memory.N6Memory4ReadE"
    ∧ memoryReadRoutingKey ≠ "memory.Read" :=
  ⟨rfl, by decide⟩

/-- C4 (amended): the routing key stamped on the request frame is
`module + "." + typeid(Method).name()`, the implementation-defined type name
(the Itanium-ABI mangled name under the project's toolchain), which is the
same string `module_init` registered the handler under; for `Memory::Read`
the routing key is `"memory.N6Memory4ReadE"`. -/
theorem C4_amended_routing_key :
    memoryReadRoutingKey = "memory." ++ memoryReadRegisteredName
    ∧ memoryReadRegisteredName = "N6Memory4ReadE" :=
  ⟨rfl, rfl⟩

/-- A response into which a handler partially wrote the positional key
`"0"` before the trap ran, with a successful backtrace capture. -/
def c5response : RPCMsg :=
  handle_exception (.stdExc "boom") ((RPCMsg.fresh "resp").set "0" (.word 42)) (some ["sym0"])

/-- C5 counterexample: after the dispatcher's error trap runs on a response
already holding positional key `"0"`, that key is still present — the trap
adds `"error"` (and `"backtrace"`) but does not overwrite the response, so
leftover positional keys remain. -/
theorem C5_counterexample :
    c5response.keyExists "0" = true
    ∧ c5response.keyExists "error" = true
    ∧ c5response.keys = ["0", "error", "backtrace"] :=
  ⟨rfl, rfl, rfl⟩

/-- C5 (amended): the error trap sets the `"error"` key (and, best effort,
`"backtrace"`) on the response but removes nothing: every other key keeps
the value it had before the trap, so positional keys written before the
throw remain in the response frame alongside `"error"`. -/
theorem C5_amended_trap_adds_error_preserves_keys (e : ServerException) (resp : RPCMsg)
    (bt : Option (List String)) (k : String) :
    (handle_exception e resp bt).keyExists "error" = true
    ∧ (k ≠ "error" → k ≠ "backtrace" → (handle_exception e resp bt).get k = resp.get k) :=
  ⟨handle_exception_keyExists_error e resp bt,
   fun hke hkb => handle_exception_get_other e resp bt k hke hkb⟩

/-- C5 amended, witnessed at the concrete partially-written response: the
positional key `"0"` keeps its value across the trap. -/
theorem C5_amended_witness :
    (handle_exception (.stdExc "boom") ((RPCMsg.fresh "resp").set "0" (.word 42))
        (some ["sym0"])).get "0"
      = ((RPCMsg.fresh "resp").set "0" (.word 42)).get "0" :=
  (C5_amended_trap_adds_error_preserves_keys (.stdExc "boom")
      ((RPCMsg.fresh "resp").set "0" (.word 42)) (some ["sym0"]) "0").2
    (by decide) (by decide)

/-- C9: for every trapped exception the `"error"` key is written before the
backtrace capture is attempted, and the capture swallows its own failures:
whatever the backtrace outcome, the response carries the exception's message
under `"error"`; and when capture fails the response is exactly the
error-only frame, so a backtrace failure can only omit the `"backtrace"`
key, never remove or alter `"error"`. -/
theorem C9_error_survives_backtrace_failure (e : ServerException) (resp : RPCMsg)
    (bt : Option (List String)) :
    (handle_exception e resp bt).getString "error" = .ok (get_exception_message e)
    ∧ handle_exception e resp none = resp.set "error" (.str (get_exception_message e)) :=
  ⟨handle_exception_getString_error e resp bt, rfl⟩

/-- C6: every exception trapped by the server stub sets the `"error"` key of
the response to the taxonomy string: the reason text verbatim for a domain
exception, `"bad RPC key <key>"` for an absent key at read, `"RPC type
error"` for a codec type mismatch, `"RPC buffer too small"` for capacity
exhaustion, `"corrupt RPC message: <why>"` for an inconsistent frame, and
`"caught unknown exception"` otherwise; in particular a read of the absent
key `"0"` yields `"bad RPC key 0"`. -/
theorem C6_error_taxonomy (M : MethodImpl) (args : List RPCValue) (route rroute : String)
    (bt : Option (List String)) (e : ServerException)
    (hargs : M.argTypes = args.map RPCValue.typeOf)
    (hrun : M.run args = .error e) :
    ((invoke M (encodeRequest route args) (RPCMsg.fresh rroute) bt).getString "error"
      = .ok (match e with
             | .stdExc w => w
             | .badKey k => "bad RPC key " ++ k
             | .typeExc => "RPC type error"
             | .bufferTooSmall => "RPC buffer too small"
             | .corruptMessage why => "corrupt RPC message: " ++ why
             | .unknown => "caught unknown exception"))
    ∧ ∀ M' : MethodImpl, M'.argTypes = [RPCType.u32] →
        (invoke M' (RPCMsg.fresh route) (RPCMsg.fresh rroute) bt).getString "error"
          = .ok "bad RPC key 0" := by
  constructor
  · rw [invoke_run_error M args route _ bt e hargs hrun,
      handle_exception_getString_error]
    cases e <;> rfl
  · intro M' hM'
    unfold invoke
    rw [hM']
    have hdec : RMessage.getTuple ⟨RPCMsg.fresh route, 0⟩ [RPCType.u32]
        = .error (.badKey (decStr 0)) := rfl
    rw [hdec]
    rw [handle_exception_getString_error]
    rfl

/-- A handler throwing a frame-type mismatch, for the C6 witness. -/
def c6method : MethodImpl := ⟨[.u32], fun _ => .error .typeExc⟩

/-- C6 witnessed at a concrete handler throwing a type exception and at a
concrete empty request. -/
theorem C6_witness :
    ((invoke c6method (encodeRequest "memory.X" [.word 3]) (RPCMsg.fresh "") none).getString
        "error" = .ok "RPC type error")
    ∧ (invoke c6method (RPCMsg.fresh "memory.X") (RPCMsg.fresh "") none).getString "error"
        = .ok "bad RPC key 0" :=
  ⟨(C6_error_taxonomy c6method [.word 3] "memory.X" "" none .typeExc rfl rfl).1,
   (C6_error_taxonomy c6method [.word 3] "memory.X" "" none .typeExc rfl rfl).2 c6method rfl⟩

/-- C7: when the method body returns normally with return type `UNIT`, the
response frame gets neither an `"error"` key nor a positional `"0"` key,
and the client call reads nothing from the response and yields unit. -/
theorem C7_unit_return_clean_response (M : MethodImpl) (args : List RPCValue)
    (route rroute : String) (bt : Option (List String))
    (hargs : M.argTypes = args.map RPCValue.typeOf)
    (hrun : M.run args = .ok none) :
    (invoke M (encodeRequest route args) (RPCMsg.fresh rroute) bt).keyExists "error" = false
    ∧ (invoke M (encodeRequest route args) (RPCMsg.fresh rroute) bt).keyExists "0" = false
    ∧ clientReceive none (invoke M (encodeRequest route args) (RPCMsg.fresh rroute) bt)
        = .ok none := by
  rw [invoke_run_unit M args route _ bt hargs hrun]
  exact ⟨rfl, rfl, rfl⟩

/-- A `void` handler taking an address and a word vector, mirroring
`Memory::Write`, for the C7 witness. -/
def c7method : MethodImpl := ⟨[.u32, .vecU32], fun _ => .ok none⟩

/-- C7 witnessed at a concrete `void` method and argument tuple. -/
theorem C7_witness :
    (invoke c7method (encodeRequest "memory.W" [.word 4096, .wordArray [10, 11, 12]])
        (RPCMsg.fresh "") none).keyExists "error" = false
    ∧ (invoke c7method (encodeRequest "memory.W" [.word 4096, .wordArray [10, 11, 12]])
        (RPCMsg.fresh "") none).keyExists "0" = false
    ∧ clientReceive none (invoke c7method
        (encodeRequest "memory.W" [.word 4096, .wordArray [10, 11, 12]])
        (RPCMsg.fresh "") none) = .ok none :=
  C7_unit_return_clean_response c7method [.word 4096, .wordArray [10, 11, 12]]
    "memory.W" "" none rfl rfl

/-- C8: a response carrying `"error"` but no `"backtrace"` reconstructs a
`RemoteException` with `has_backtrace() = false` and an empty backtrace
list; when `"backtrace"` is present as a string array it is copied verbatim
and `has_backtrace() = true`. -/
theorem C8_backtrace_reconstruction (resp : RPCMsg) (msgText : String)
    (herr : resp.getString "error" = .ok msgText) :
    (resp.keyExists "backtrace" = false →
      RemoteException.ofResponse resp = .ok ⟨"remote error: " ++ msgText, false, []⟩)
    ∧ ∀ bts : List String, resp.get "backtrace" = some (.strArray bts) →
      RemoteException.ofResponse resp = .ok ⟨"remote error: " ++ msgText, true, bts⟩ := by
  constructor
  · intro hnb
    unfold RemoteException.ofResponse
    rw [herr]
    simp [hnb]
  · intro bts hget
    unfold RemoteException.ofResponse
    rw [herr]
    have hex : resp.keyExists "backtrace" = true := by simp [RPCMsg.keyExists, hget]
    simp [hex, RPCMsg.getStringArray, hget]

/-- A response with an error text and no backtrace. -/
def c8respA : RPCMsg := (RPCMsg.fresh "a").set "error" (.str "oops")

/-- A response with an error text and a two-frame backtrace. -/
def c8respB : RPCMsg :=
  ((RPCMsg.fresh "b").set "error" (.str "oops")).set "backtrace" (.strArray ["f0", "f1"])

/-- C8 witnessed at concrete responses with and without a backtrace. -/
theorem C8_witness :
    RemoteException.ofResponse c8respA = .ok ⟨"remote error: " ++ "oops", false, []⟩
    ∧ RemoteException.ofResponse c8respB = .ok ⟨"remote error: " ++ "oops", true, ["f0", "f1"]⟩ :=
  ⟨(C8_backtrace_reconstruction c8respA "oops" rfl).1 rfl,
   (C8_backtrace_reconstruction c8respB "oops" rfl).2 ["f0", "f1"] rfl⟩

/-- C10: a successful `Memory::Read::operator()(address, count)` returns a
vector of length exactly `count`; when the memory-service read fails it
throws an exception whose text is `"read memsvc error: "` followed by the
service's last-error string, and no vector is returned. -/
theorem C10_memory_read_length_and_error (svc : MemSvc) (address count : Nat) :
    (match MemoryRead svc address count with
     | .ok v => v.length = count
     | .error e => e = "read memsvc error: " ++ svc.lastError) := by
  unfold MemoryRead
  cases h : svc.readOk address count with
  | true =>
    simp [h, fillBuffer]
    omega
  | false =>
    simp [h]
